import Mathlib

/-!
Shallow embedding of the drum-inventory application (`app.py` / `db_setup.py`).

The SQLite store is modelled as four lists of records (one per table), and
each SQL statement of the source becomes the corresponding pure list
transformation: `UPDATE ... WHERE key = ?` is a `List.map` that rewrites the
rows matching the key, `INSERT` is an append, `DELETE FROM t` empties the
list, and `SELECT ... WHERE key = ?` is `List.find?`.  `NULL`able columns
are `Option`s, `DATETIME` values are abstracted to a `Nat` tick supplied by
the caller (the source always passes `datetime.now()`).
-/

/-- A row of the `drums` table. -/
structure Drum where
  drumID : String
  orderNo : Option String
  ra : Option String
  status : String
  currentGrid : Option String
  lastUpdated : Nat
deriving Repr, DecidableEq

/-- A row of the `grids` table. -/
structure Grid where
  gridID : String
  status : String
  currentDrumID : Option String
deriving Repr, DecidableEq

/-- A row of the `transactions` table (the autoincrement key is the list position). -/
structure Txn where
  drumID : String
  gridID : String
  status : String
  timestamp : Nat
deriving Repr, DecidableEq

/-- A row of the `drum_history` table (the autoincrement key is the list position). -/
structure HistRec where
  drumID : String
  orderNo : Option String
  ra : Option String
  status : String
  gridID : String
  timestamp : Nat
deriving Repr, DecidableEq

/-- The whole store: the four tables of `inventory.db`. -/
structure DB where
  drums : List Drum
  grids : List Grid
  transactions : List Txn
  drumHistory : List HistRec
deriving Repr, DecidableEq

/-- `SELECT * FROM drums WHERE DrumID = ?` (`get_drum` in the source);
`none` plays the role of the empty DataFrame. -/
def getDrum (db : DB) (drum_id : String) : Option Drum :=
  db.drums.find? (fun d => d.drumID == drum_id)

/-- `SELECT * FROM grids WHERE GridID = ?` — lookup of one grid row. -/
def findGrid (db : DB) (grid_id : String) : Option Grid :=
  db.grids.find? (fun g => g.gridID == grid_id)

/-- The fixed 3×3 slot set seeded by `create_tables` (loops `for row in "ABC"`,
`for col in range(1, 4)`), each row `('Available', NULL)`. -/
def seededGrids : List Grid :=
  ["A1", "A2", "A3", "B1", "B2", "B3", "C1", "C2", "C3"].map
    (fun gid => ⟨gid, "Available", none⟩)

/-- The store right after `create_tables()` runs on a fresh database. -/
def initDB : DB :=
  ⟨[], seededGrids, [], []⟩

/-- `insert_drum`: `INSERT OR REPLACE INTO drums ... VALUES (?, ?, ?, 'OUT', NULL, now)`. -/
def insert_drum (db : DB) (drum_id order_no ra : String) (now : Nat) : DB :=
  let newDrum : Drum := ⟨drum_id, some order_no, some ra, "OUT", none, now⟩
  if (getDrum db drum_id).isSome then
    { db with drums := db.drums.map (fun d => if d.drumID == drum_id then newDrum else d) }
  else
    { db with drums := db.drums ++ [newDrum] }

/-- `update_drum_info`: `UPDATE drums SET OrderNo=?, RA=?, Status='OUT',
CurrentGrid=NULL, LastUpdated=? WHERE DrumID=?`. -/
def update_drum_info (db : DB) (drum_id order_no ra : String) (now : Nat) : DB :=
  { db with drums := db.drums.map (fun d =>
      if d.drumID == drum_id then
        { d with orderNo := some order_no, ra := some ra, status := "OUT",
                 currentGrid := none, lastUpdated := now }
      else d) }

/-- `update_drum_in`: the three statements marking the drum IN, the grid
Occupied, and appending the IN transaction.  Note the source has no
existence check on either the drum or the grid here. -/
def update_drum_in (db : DB) (drum_id grid_id : String) (now : Nat) : DB :=
  { db with
    drums := db.drums.map (fun d =>
      if d.drumID == drum_id then
        { d with status := "IN", currentGrid := some grid_id, lastUpdated := now }
      else d),
    grids := db.grids.map (fun g =>
      if g.gridID == grid_id then
        { g with status := "Occupied", currentDrumID := some drum_id }
      else g),
    transactions := db.transactions ++ [⟨drum_id, grid_id, "IN", now⟩] }

/-- `update_drum_out`: returns `False` (writing nothing) when the drum row is
absent or its `CurrentGrid` is `NULL`; otherwise logs the history row (from
the pre-state values), clears the drum, frees the grid, appends the OUT
transaction, and returns `True`. -/
def update_drum_out (db : DB) (drum_id : String) (now : Nat) : DB × Bool :=
  match getDrum db drum_id with
  | none => (db, false)
  | some dr =>
    match dr.currentGrid with
    | none => (db, false)
    | some grid_id =>
      ({ db with
         drumHistory := db.drumHistory ++ [⟨drum_id, dr.orderNo, dr.ra, "OUT", grid_id, now⟩],
         drums := db.drums.map (fun d =>
           if d.drumID == drum_id then
             { d with status := "OUT", orderNo := none, ra := none,
                      currentGrid := none, lastUpdated := now }
           else d),
         grids := db.grids.map (fun g =>
           if g.gridID == grid_id then
             { g with status := "Available", currentDrumID := none }
           else g) ,
         transactions := db.transactions ++ [⟨drum_id, grid_id, "OUT", now⟩] }, true)

/-- The availability test of the placement page: membership of `grid_id` in
`SELECT * FROM grids WHERE Status='Available'` (`drum_in`, the
`available_grids[available_grids["GridID"] == grid_id]` filter). -/
def placeCheck (db : DB) (grid_id : String) : Bool :=
  db.grids.any (fun g => g.status == "Available" && g.gridID == grid_id)

/-- Outcome reported by the placement page: the success banner or the
"Selected grid is not available or doesn't exist." error. -/
inductive PlaceResult where
  | success : PlaceResult
  | gridUnavailable : PlaceResult
deriving Repr, DecidableEq

/-- The spec's `placeDrum`: the placement path of `drum_in` — check the grid
against the available set, then run `update_drum_in`, else report the error
and leave the store untouched. -/
def placeDrum (db : DB) (drum_id grid_id : String) (now : Nat) : DB × PlaceResult :=
  if placeCheck db grid_id then
    (update_drum_in db drum_id grid_id now, .success)
  else
    (db, .gridUnavailable)

/-- The spec's `registerOrUpdateDrum`: the dispatch of `drum_in` —
`insert_drum` when the lookup is empty, `update_drum_info` otherwise. -/
def registerOrUpdateDrum (db : DB) (drum_id order_no ra : String) (now : Nat) : DB :=
  if (getDrum db drum_id).isSome then
    update_drum_info db drum_id order_no ra now
  else
    insert_drum db drum_id order_no ra now

/-- The spec's `retrieveDrum` is exactly `update_drum_out`. -/
def retrieveDrum (db : DB) (drum_id : String) (now : Nat) : DB × Bool :=
  update_drum_out db drum_id now

/-- The reset handler: `DELETE` from all four tables, then re-seed the nine
grids (`INSERT OR IGNORE` over the fixed slot set, all inserts landing on the
emptied table). -/
def resetAll (_db : DB) : DB :=
  ⟨[], seededGrids, [], []⟩

/-- The drums whose `CurrentGrid` references a given grid id. -/
def drumsReferencing (db : DB) (gid : String) : List Drum :=
  db.drums.filter (fun d => d.currentGrid == some gid)

/-- Exclusivity for one grid row, as §8 of the spec states it: an Occupied
grid has exactly one drum referencing it, and its occupant field names that
drum; an Available grid is referenced by no drum. -/
def GridInv (db : DB) (g : Grid) : Prop :=
  (g.status = "Occupied" →
    ∃ d ∈ db.drums, d.currentGrid = some g.gridID ∧ g.currentDrumID = some d.drumID ∧
      ∀ d2 ∈ db.drums, d2.currentGrid = some g.gridID → d2 = d) ∧
  (g.status = "Available" → ∀ d ∈ db.drums, d.currentGrid ≠ some g.gridID)

/-- Drum-side consistency: `CurrentGrid` is non-`NULL` iff `Status = 'IN'`. -/
def DrumInv (d : Drum) : Prop :=
  d.currentGrid.isSome = true ↔ d.status = "IN"

/-- The bidirectional consistency invariant of the spec (§3/§8). -/
def StoreInv (db : DB) : Prop :=
  (∀ g ∈ db.grids, GridInv db g) ∧ (∀ d ∈ db.drums, DrumInv d)

instance (db : DB) (g : Grid) : Decidable (GridInv db g) := by
  unfold GridInv; infer_instance

instance (d : Drum) : Decidable (DrumInv d) := by
  unfold DrumInv; infer_instance

instance (db : DB) : Decidable (StoreInv db) := by
  unfold StoreInv; infer_instance

/-- Every grid row carries one of the two statuses the code ever writes. -/
def GridStatusInv (db : DB) : Prop :=
  ∀ g ∈ db.grids, g.status = "Available" ∨ g.status = "Occupied"

/-- Every drum row carries one of the two statuses the code ever writes. -/
def DrumStatusInv (db : DB) : Prop :=
  ∀ d ∈ db.drums, d.status = "IN" ∨ d.status = "OUT"

/-- `DrumID` is the primary key of `drums`: two rows with equal ids are equal. -/
def UniqueDrumIDs (db : DB) : Prop :=
  ∀ d1 ∈ db.drums, ∀ d2 ∈ db.drums, d1.drumID = d2.drumID → d1 = d2

/-- States reachable from the freshly seeded store by the four operations,
invoked with arbitrary arguments — exactly what the application's UI can
fire against the store. -/
inductive Reachable : DB → Prop where
  | init : Reachable initDB
  | register (db : DB) (h : Reachable db) (d o r : String) (now : Nat) :
      Reachable (registerOrUpdateDrum db d o r now)
  | place (db : DB) (h : Reachable db) (d g : String) (now : Nat) :
      Reachable (placeDrum db d g now).1
  | retrieve (db : DB) (h : Reachable db) (d : String) (now : Nat) :
      Reachable (retrieveDrum db d now).1
  | reset (db : DB) (h : Reachable db) : Reachable (resetAll db)

/-- Reachability restricted to the call patterns the invariant survives:
registration only of drums that are absent or already OUT, placement only of
existing OUT drums. -/
inductive SafeReachable : DB → Prop where
  | init : SafeReachable initDB
  | register (db : DB) (h : SafeReachable db) (d o r : String) (now : Nat)
      (hguard : getDrum db d = none ∨ ∃ dr, getDrum db d = some dr ∧ dr.status = "OUT") :
      SafeReachable (registerOrUpdateDrum db d o r now)
  | place (db : DB) (h : SafeReachable db) (d g : String) (now : Nat)
      (hguard : ∃ dr, getDrum db d = some dr ∧ dr.status = "OUT") :
      SafeReachable (placeDrum db d g now).1
  | retrieve (db : DB) (h : SafeReachable db) (d : String) (now : Nat) :
      SafeReachable (retrieveDrum db d now).1
  | reset (db : DB) (h : SafeReachable db) : SafeReachable (resetAll db)

/-- A state that breaks the invariant: register `D1`, place it on `A1`, then
re-register it (the source's `update_drum_info` forces it OUT and clears its
grid without freeing `A1`). -/
def staleGridDB : DB :=
  registerOrUpdateDrum (placeDrum (registerOrUpdateDrum initDB "D1" "O1" "M1" 0) "D1" "A1" 1).1
    "D1" "O2" "M2" 2

/-- Two drums registered and placed on `A1` and `A2`: the pre-state of the
frame-property witness. -/
def frameDB : DB :=
  (placeDrum (placeDrum (registerOrUpdateDrum (registerOrUpdateDrum initDB
    "D1" "O1" "M1" 0) "D2" "O2" "M2" 0) "D1" "A1" 1).1 "D2" "A2" 2).1

/-- Pre-state of the double-placement race: two drums staged OUT, all nine
grids free. -/
def raceDB0 : DB :=
  registerOrUpdateDrum (registerOrUpdateDrum initDB "D1" "O1" "M1" 0) "D2" "O2" "M2" 0

/-- Final state of the interleaving check₁ · check₂ · commit₁ · commit₂ of
two placements on `A1`: both availability checks read `raceDB0` (each helper
commits its own statements, no transaction spans the page's check and
`update_drum_in`), then both commits land. -/
def raceDB2 : DB :=
  update_drum_in (update_drum_in raceDB0 "D1" "A1" 1) "D2" "A1" 2

instance (db : DB) : Decidable (GridStatusInv db) := by
  unfold GridStatusInv; infer_instance

instance (db : DB) : Decidable (DrumStatusInv db) := by
  unfold DrumStatusInv; infer_instance

instance (db : DB) : Decidable (UniqueDrumIDs db) := by
  unfold UniqueDrumIDs; infer_instance

/-- The auxiliary inductive invariant: the spec's bidirectional invariant
together with the structural facts needed to push it through each step. -/
def AuxInv (db : DB) : Prop :=
  StoreInv db ∧ GridStatusInv db ∧ DrumStatusInv db ∧ UniqueDrumIDs db

instance (db : DB) : Decidable (AuxInv db) := by
  unfold AuxInv; infer_instance

/-- The drum-side facts that hold in every state the UI can reach, with no
restriction at all on the call sequence. -/
def BasicInv (db : DB) : Prop :=
  (∀ d ∈ db.drums, DrumInv d) ∧ DrumStatusInv db

instance (db : DB) : Decidable (BasicInv db) := by
  unfold BasicInv; infer_instance

/-- `List.find?` commutes with a map that does not change the searched key. -/
theorem find?_map_comm {α : Type} (l : List α) (f : α → α) (p : α → Bool)
    (hp : ∀ x, p (f x) = p x) :
    (l.map f).find? p = (l.find? p).map f := by
  induction l with
  | nil => rfl
  | cons a t ih =>
      cases h : p a with
      | true =>
          rw [List.map_cons, List.find?_cons_of_pos _ (by rw [hp a, h]),
              List.find?_cons_of_pos _ h, Option.map_some']
      | false =>
          rw [List.map_cons, List.find?_cons_of_neg _ (by rw [hp a, h]; simp),
              List.find?_cons_of_neg _ (by rw [h]; simp), ih]

/-- An empty drum lookup means no row carries the id. -/
theorem getDrum_eq_none {db : DB} {did : String} (h : getDrum db did = none) :
    ∀ x ∈ db.drums, x.drumID ≠ did := by
  intro x hx
  have hx2 := List.find?_eq_none.mp h x hx
  simpa using hx2

/-- A successful drum lookup returns a member row carrying the id. -/
theorem getDrum_mem {db : DB} {did : String} {dr : Drum} (h : getDrum db did = some dr) :
    dr ∈ db.drums ∧ dr.drumID = did := by
  refine ⟨List.mem_of_find?_eq_some h, ?_⟩
  have hp := List.find?_some h
  simpa using hp

/-- With unique ids, any member row carrying the looked-up id is the found row. -/
theorem row_eq_of_id {db : DB} (hu : UniqueDrumIDs db) {did : String} {dr : Drum}
    (h : getDrum db did = some dr) {x : Drum} (hx : x ∈ db.drums) (hxid : x.drumID = did) :
    x = dr := by
  obtain ⟨hmem, hid⟩ := getDrum_mem h
  exact hu x hx dr hmem (by rw [hxid, hid])

/-- A drum whose status is not `IN` references no grid (drum-side invariant). -/
theorem currentGrid_eq_none_of_ne {d : Drum} (h : DrumInv d) (hs : d.status ≠ "IN") :
    d.currentGrid = none := by
  rcases hcg : d.currentGrid with _ | g
  · rfl
  · exact absurd (h.mp (by rw [hcg]; rfl)) hs

/-- Registration (absent drum → `insert_drum`, present drum forced OUT by
`update_drum_info`) preserves the auxiliary invariant as long as the drum is
not currently placed. -/
theorem auxInv_register (db : DB) (haux : AuxInv db) (did o r : String) (now : Nat)
    (hguard : getDrum db did = none ∨ ∃ dr, getDrum db did = some dr ∧ dr.status = "OUT") :
    AuxInv (registerOrUpdateDrum db did o r now) := by
  obtain ⟨⟨hgrid, hdrum⟩, hgs, hds, hu⟩ := haux
  rcases hguard with hnone | ⟨dr, hdr, hout⟩
  · -- insert path: the new row is OUT with no grid and a fresh id
    have hnotin := getDrum_eq_none hnone
    have hres : registerOrUpdateDrum db did o r now
        = { db with drums := db.drums ++ [⟨did, some o, some r, "OUT", none, now⟩] } := by
      simp [registerOrUpdateDrum, insert_drum, hnone]
    rw [hres]
    refine ⟨⟨?_, ?_⟩, ?_, ?_, ?_⟩
    · intro g hg
      obtain ⟨hocc, havail⟩ := hgrid g hg
      constructor
      · intro hstat
        obtain ⟨dd, hdd, hcg, hoc, huniq⟩ := hocc hstat
        refine ⟨dd, List.mem_append_left _ hdd, hcg, hoc, ?_⟩
        intro d2 hd2 hcg2
        rcases List.mem_append.mp hd2 with h1 | h1
        · exact huniq d2 h1 hcg2
        · exfalso
          have h2 : d2 = ⟨did, some o, some r, "OUT", none, now⟩ := by simpa using h1
          rw [h2] at hcg2
          exact Option.noConfusion hcg2
      · intro hstat d2 hd2
        rcases List.mem_append.mp hd2 with h1 | h1
        · exact havail hstat d2 h1
        · have h2 : d2 = ⟨did, some o, some r, "OUT", none, now⟩ := by simpa using h1
          rw [h2]
          intro hc
          exact Option.noConfusion hc
    · intro d2 hd2
      rcases List.mem_append.mp hd2 with h1 | h1
      · exact hdrum d2 h1
      · have h2 : d2 = ⟨did, some o, some r, "OUT", none, now⟩ := by simpa using h1
        rw [h2]
        constructor
        · intro hc
          have hc2 : (none : Option String).isSome = true := hc
          exact absurd hc2 (by decide)
        · intro hc
          have hc2 : ("OUT" : String) = "IN" := hc
          exact absurd hc2 (by decide)
    · exact hgs
    · intro d2 hd2
      rcases List.mem_append.mp hd2 with h1 | h1
      · exact hds d2 h1
      · have h2 : d2 = ⟨did, some o, some r, "OUT", none, now⟩ := by simpa using h1
        rw [h2]; exact Or.inr rfl
    · intro d1 hd1 d2 hd2 hid12
      rcases List.mem_append.mp hd1 with h1 | h1 <;> rcases List.mem_append.mp hd2 with h2 | h2
      · exact hu d1 h1 d2 h2 hid12
      · exfalso
        have h2' : d2 = ⟨did, some o, some r, "OUT", none, now⟩ := by simpa using h2
        exact hnotin d1 h1 (by rw [hid12, h2'])
      · exfalso
        have h1' : d1 = ⟨did, some o, some r, "OUT", none, now⟩ := by simpa using h1
        exact hnotin d2 h2 (by rw [← hid12, h1'])
      · have h1' : d1 = ⟨did, some o, some r, "OUT", none, now⟩ := by simpa using h1
        have h2' : d2 = ⟨did, some o, some r, "OUT", none, now⟩ := by simpa using h2
        rw [h1', h2']
  · -- update path: the touched row is the OUT row, already referencing no grid
    obtain ⟨hmem, hid⟩ := getDrum_mem hdr
    have hcgnone : dr.currentGrid = none :=
      currentGrid_eq_none_of_ne (hdrum dr hmem) (by rw [hout]; decide)
    have hres : registerOrUpdateDrum db did o r now = update_drum_info db did o r now := by
      rw [registerOrUpdateDrum, hdr]; rfl
    rw [hres, update_drum_info]
    set f : Drum → Drum := fun d =>
      if d.drumID == did then
        { d with orderNo := some o, ra := some r, status := "OUT",
                 currentGrid := none, lastUpdated := now }
      else d with hf
    have hfid : ∀ x : Drum, (f x).drumID = x.drumID := by
      intro x
      by_cases h : x.drumID = did <;> simp [hf, h]
    have hfcg : ∀ x ∈ db.drums, (f x).currentGrid = x.currentGrid := by
      intro x hx
      by_cases h : x.drumID = did
      · have hxdr : x = dr := row_eq_of_id hu hdr hx h
        rw [hxdr] at h ⊢
        simp [hf, h, hcgnone]
      · simp [hf, h]
    refine ⟨⟨?_, ?_⟩, ?_, ?_, ?_⟩
    · intro g hg
      obtain ⟨hocc, havail⟩ := hgrid g hg
      constructor
      · intro hstat
        obtain ⟨dd, hdd, hcg, hoc, huniq⟩ := hocc hstat
        have hfdd : f dd = dd := by
          by_cases h : dd.drumID = did
          · exfalso
            have hdddr : dd = dr := row_eq_of_id hu hdr hdd h
            rw [hdddr, hcgnone] at hcg
            exact Option.noConfusion hcg
          · simp [hf, h]
        refine ⟨dd, ?_, hcg, hoc, ?_⟩
        · rw [← hfdd]; exact List.mem_map_of_mem f hdd
        · intro d2 hd2 hcg2
          obtain ⟨x, hx, hfx2⟩ := List.mem_map.mp hd2
          have hxcg : x.currentGrid = some g.gridID := by
            rw [← hfcg x hx, hfx2]; exact hcg2
          rw [← hfx2, huniq x hx hxcg, hfdd]
      · intro hstat d2 hd2
        obtain ⟨x, hx, hfx2⟩ := List.mem_map.mp hd2
        rw [← hfx2]
        intro hc
        have hxcg : x.currentGrid = some g.gridID := by rw [← hfcg x hx]; exact hc
        exact havail hstat x hx hxcg
    · intro d2 hd2
      obtain ⟨x, hx, hfx2⟩ := List.mem_map.mp hd2
      rw [← hfx2]
      by_cases h : x.drumID = did
      · simp only [hf]
        rw [if_pos (by simp [h])]
        constructor
        · intro hc
          have hc2 : (none : Option String).isSome = true := hc
          exact absurd hc2 (by decide)
        · intro hc
          have hc2 : ("OUT" : String) = "IN" := hc
          exact absurd hc2 (by decide)
      · simp only [hf]
        rw [if_neg (by simp [h])]
        exact hdrum x hx
    · exact hgs
    · intro d2 hd2
      obtain ⟨x, hx, hfx2⟩ := List.mem_map.mp hd2
      rw [← hfx2]
      by_cases h : x.drumID = did
      · simp only [hf]
        rw [if_pos (by simp [h])]
        exact Or.inr rfl
      · simp only [hf]
        rw [if_neg (by simp [h])]
        exact hds x hx
    · intro d1 hd1 d2 hd2 hid12
      obtain ⟨x1, hx1, hfx1⟩ := List.mem_map.mp hd1
      obtain ⟨x2, hx2, hfx2⟩ := List.mem_map.mp hd2
      have hx12 : x1 = x2 :=
        hu x1 hx1 x2 hx2 (by rw [← hfid x1, ← hfid x2, hfx1, hfx2, hid12])
      rw [← hfx1, ← hfx2, hx12]

/-- A row map that keeps every `DrumID` preserves key uniqueness. -/
theorem uniqueIDs_map {db : DB} (hu : UniqueDrumIDs db) (f : Drum → Drum)
    (hfid : ∀ x : Drum, (f x).drumID = x.drumID) :
    ∀ d1 ∈ db.drums.map f, ∀ d2 ∈ db.drums.map f, d1.drumID = d2.drumID → d1 = d2 := by
  intro d1 hd1 d2 hd2 hid12
  obtain ⟨x1, hx1, hfx1⟩ := List.mem_map.mp hd1
  obtain ⟨x2, hx2, hfx2⟩ := List.mem_map.mp hd2
  have hx12 : x1 = x2 :=
    hu x1 hx1 x2 hx2 (by rw [← hfid x1, ← hfid x2, hfx1, hfx2, hid12])
  rw [← hfx1, ← hfx2, hx12]

/-- Placement of an existing OUT drum preserves the auxiliary invariant: the
availability check of the placement page plus the exclusivity of the target
grid give the commit a clean slate. -/
theorem auxInv_place (db : DB) (haux : AuxInv db) (did g : String) (now : Nat)
    (hguard : ∃ dr, getDrum db did = some dr ∧ dr.status = "OUT") :
    AuxInv (placeDrum db did g now).1 := by
  obtain ⟨⟨hgrid, hdrum⟩, hgs, hds, hu⟩ := haux
  obtain ⟨dr, hdr, hout⟩ := hguard
  obtain ⟨hmem, hid⟩ := getDrum_mem hdr
  have hcgnone : dr.currentGrid = none :=
    currentGrid_eq_none_of_ne (hdrum dr hmem) (by rw [hout]; decide)
  by_cases hchk : placeCheck db g = true
  · obtain ⟨g0, hg0, hg0p⟩ := List.any_eq_true.mp hchk
    have hg0a : g0.status = "Available" := by
      have h1 := (Bool.and_eq_true _ _).mp hg0p
      simpa using h1.1
    have hg0id : g0.gridID = g := by
      have h1 := (Bool.and_eq_true _ _).mp hg0p
      simpa using h1.2
    have hnoref : ∀ x ∈ db.drums, x.currentGrid ≠ some g := by
      intro x hx
      have h1 := (hgrid g0 hg0).2 hg0a x hx
      rw [hg0id] at h1
      exact h1
    have hres : (placeDrum db did g now).1 = update_drum_in db did g now := by
      rw [placeDrum, if_pos hchk]
    rw [hres]
    simp only [update_drum_in]
    refine ⟨⟨?_, ?_⟩, ?_, ?_, ?_⟩
    · intro g1 hg1
      obtain ⟨x1, hx1, hfx1⟩ := List.mem_map.mp hg1
      by_cases hxg : x1.gridID = g
      · have hg1eq : g1 = { x1 with status := "Occupied", currentDrumID := some did } := by
          rw [← hfx1]; simp [hxg]
        constructor
        · intro _
          refine ⟨_, List.mem_map_of_mem _ hmem, ?_, ?_, ?_⟩
          · show (if dr.drumID == did then _ else dr).currentGrid = some g1.gridID
            rw [hg1eq]
            simp [hid, hxg]
          · rw [hg1eq]
            simp [hid]
          · intro d2 hd2 hcg2
            obtain ⟨x, hx, hfx2⟩ := List.mem_map.mp hd2
            by_cases h : x.drumID = did
            · have hxdr : x = dr := row_eq_of_id hu hdr hx h
              rw [← hfx2, hxdr]
            · exfalso
              rw [← hfx2] at hcg2
              simp only [h, beq_iff_eq, if_false] at hcg2
              rw [hg1eq] at hcg2
              exact hnoref x hx (by rw [hcg2]; simp [hxg])
        · rw [hg1eq]
          intro hc
          have hc2 : ("Occupied" : String) = "Available" := hc
          exact absurd hc2 (by decide)
      · have hg1eq : g1 = x1 := by rw [← hfx1]; simp [hxg]
        subst hg1eq
        obtain ⟨hocc, havail⟩ := hgrid g1 hx1
        constructor
        · intro hstat
          obtain ⟨dd, hdd, hcg, hoc, huniq⟩ := hocc hstat
          have hddne : dd.drumID ≠ did := by
            intro h
            have hdddr : dd = dr := row_eq_of_id hu hdr hdd h
            rw [hdddr, hcgnone] at hcg
            exact Option.noConfusion hcg
          refine ⟨dd, ?_, hcg, hoc, ?_⟩
          · have hfdd : (if dd.drumID == did then
                { dd with status := "IN", currentGrid := some g, lastUpdated := now }
              else dd) = dd := by simp [hddne]
            rw [← hfdd]
            exact List.mem_map_of_mem _ hdd
          · intro d2 hd2 hcg2
            obtain ⟨x, hx, hfx2⟩ := List.mem_map.mp hd2
            by_cases h : x.drumID = did
            · exfalso
              rw [← hfx2] at hcg2
              simp only [h, beq_self_eq_true, if_true] at hcg2
              have hcg3 : some g = some g1.gridID := hcg2
              exact hxg (Option.some.inj hcg3).symm
            · have hfxx : (if x.drumID == did then
                  { x with status := "IN", currentGrid := some g, lastUpdated := now }
                else x) = x := by simp [h]
              rw [← hfx2, hfxx] at hcg2 ⊢
              exact huniq x hx hcg2
        · intro hstat d2 hd2
          obtain ⟨x, hx, hfx2⟩ := List.mem_map.mp hd2
          by_cases h : x.drumID = did
          · rw [← hfx2]
            simp only [h, beq_self_eq_true, if_true]
            intro hc
            have hc2 : some g = some g1.gridID := hc
            exact hxg (Option.some.inj hc2).symm
          · have hfxx : (if x.drumID == did then
                { x with status := "IN", currentGrid := some g, lastUpdated := now }
              else x) = x := by simp [h]
            rw [← hfx2, hfxx]
            exact havail hstat x hx
    · intro d2 hd2
      obtain ⟨x, hx, hfx2⟩ := List.mem_map.mp hd2
      rw [← hfx2]
      by_cases h : x.drumID = did
      · simp only [h, beq_self_eq_true, if_true]
        exact ⟨fun _ => rfl, fun _ => rfl⟩
      · simp only [h, beq_iff_eq, if_false]
        exact hdrum x hx
    · intro g1 hg1
      obtain ⟨x1, hx1, hfx1⟩ := List.mem_map.mp hg1
      rw [← hfx1]
      by_cases hxg : x1.gridID = g
      · simp [hxg]
      · simp only [hxg, beq_iff_eq, if_false]
        exact hgs x1 hx1
    · intro d2 hd2
      obtain ⟨x, hx, hfx2⟩ := List.mem_map.mp hd2
      rw [← hfx2]
      by_cases h : x.drumID = did
      · simp [h]
      · simp only [h, beq_iff_eq, if_false]
        exact hds x hx
    · exact uniqueIDs_map hu _ (by
        intro x
        by_cases h : x.drumID = did <;> simp [h])
  · have hres : (placeDrum db did g now).1 = db := by
      rw [placeDrum, if_neg hchk]
    rw [hres]
    exact ⟨⟨hgrid, hdrum⟩, hgs, hds, hu⟩

/-- Retrieval preserves the auxiliary invariant unconditionally: the
operation guards itself on the drum's `CurrentGrid`. -/
theorem auxInv_retrieve (db : DB) (haux : AuxInv db) (did : String) (now : Nat) :
    AuxInv (retrieveDrum db did now).1 := by
  obtain ⟨⟨hgrid, hdrum⟩, hgs, hds, hu⟩ := haux
  rcases hdr : getDrum db did with _ | dr
  · have hres : (retrieveDrum db did now).1 = db := by
      simp [retrieveDrum, update_drum_out, hdr]
    rw [hres]
    exact ⟨⟨hgrid, hdrum⟩, hgs, hds, hu⟩
  · obtain ⟨hmem, hid⟩ := getDrum_mem hdr
    rcases hcg : dr.currentGrid with _ | g
    · have hres : (retrieveDrum db did now).1 = db := by
        simp [retrieveDrum, update_drum_out, hdr, hcg]
      rw [hres]
      exact ⟨⟨hgrid, hdrum⟩, hgs, hds, hu⟩
    · have hres : (retrieveDrum db did now).1 = { db with
          drumHistory := db.drumHistory ++ [⟨did, dr.orderNo, dr.ra, "OUT", g, now⟩],
          drums := db.drums.map (fun d =>
            if d.drumID == did then
              { d with status := "OUT", orderNo := none, ra := none,
                       currentGrid := none, lastUpdated := now }
            else d),
          grids := db.grids.map (fun x =>
            if x.gridID == g then
              { x with status := "Available", currentDrumID := none }
            else x),
          transactions := db.transactions ++ [⟨did, g, "OUT", now⟩] } := by
        simp [retrieveDrum, update_drum_out, hdr, hcg]
      rw [hres]
      refine ⟨⟨?_, ?_⟩, ?_, ?_, ?_⟩
      · intro g1 hg1
        obtain ⟨x1, hx1, hfx1⟩ := List.mem_map.mp hg1
        by_cases hxg : x1.gridID = g
        · have hg1eq : g1 = { x1 with status := "Available", currentDrumID := none } := by
            rw [← hfx1]; simp [hxg]
          constructor
          · rw [hg1eq]
            intro hc
            have hc2 : ("Available" : String) = "Occupied" := hc
            exact absurd hc2 (by decide)
          · intro _ d2 hd2
            obtain ⟨x, hx, hfx2⟩ := List.mem_map.mp hd2
            by_cases h : x.drumID = did
            · rw [← hfx2]
              simp only [h, beq_self_eq_true, if_true]
              intro hc
              exact Option.noConfusion hc
            · have hfxx : (if x.drumID == did then
                  { x with status := "OUT", orderNo := none, ra := none,
                           currentGrid := none, lastUpdated := now }
                else x) = x := by simp [h]
              rw [← hfx2, hfxx]
              intro hc
              -- x references g (through g1); the pre-state rules this out
              have hxref : x.currentGrid = some g := by
                rw [hc, hg1eq]
                simp [hxg]
              rcases hgs x1 hx1 with ha | ho
              · exact (hgrid x1 hx1).2 ha x hx (by rw [hxref, hxg])
              · obtain ⟨dd, hdd, hcgdd, hoc, huniq⟩ := (hgrid x1 hx1).1 ho
                have hdrdd : dr = dd := huniq dr hmem (by rw [hcg, hxg])
                have hxdd : x = dd := huniq x hx (by rw [hxref, hxg])
                exact h (by rw [hxdd, ← hdrdd, hid])
        · have hg1eq : g1 = x1 := by rw [← hfx1]; simp [hxg]
          subst hg1eq
          obtain ⟨hocc, havail⟩ := hgrid g1 hx1
          constructor
          · intro hstat
            obtain ⟨dd, hdd, hcgdd, hoc, huniq⟩ := hocc hstat
            have hddne : dd.drumID ≠ did := by
              intro h
              have hdddr : dd = dr := row_eq_of_id hu hdr hdd h
              rw [hdddr, hcg] at hcgdd
              exact hxg (Option.some.inj hcgdd).symm
            refine ⟨dd, ?_, hcgdd, hoc, ?_⟩
            · have hfdd : (if dd.drumID == did then
                  { dd with status := "OUT", orderNo := none, ra := none,
                            currentGrid := none, lastUpdated := now }
                else dd) = dd := by simp [hddne]
              rw [← hfdd]
              exact List.mem_map_of_mem _ hdd
            · intro d2 hd2 hcg2
              obtain ⟨x, hx, hfx2⟩ := List.mem_map.mp hd2
              by_cases h : x.drumID = did
              · exfalso
                rw [← hfx2] at hcg2
                simp only [h, beq_self_eq_true, if_true] at hcg2
                exact Option.noConfusion hcg2
              · have hfxx : (if x.drumID == did then
                    { x with status := "OUT", orderNo := none, ra := none,
                             currentGrid := none, lastUpdated := now }
                  else x) = x := by simp [h]
                rw [← hfx2, hfxx] at hcg2 ⊢
                exact huniq x hx hcg2
          · intro hstat d2 hd2
            obtain ⟨x, hx, hfx2⟩ := List.mem_map.mp hd2
            by_cases h : x.drumID = did
            · rw [← hfx2]
              simp only [h, beq_self_eq_true, if_true]
              intro hc
              exact Option.noConfusion hc
            · have hfxx : (if x.drumID == did then
                  { x with status := "OUT", orderNo := none, ra := none,
                           currentGrid := none, lastUpdated := now }
                else x) = x := by simp [h]
              rw [← hfx2, hfxx]
              exact havail hstat x hx
      · intro d2 hd2
        obtain ⟨x, hx, hfx2⟩ := List.mem_map.mp hd2
        rw [← hfx2]
        by_cases h : x.drumID = did
        · simp only [h, beq_self_eq_true, if_true]
          constructor
          · intro hc
            have hc2 : (none : Option String).isSome = true := hc
            exact absurd hc2 (by decide)
          · intro hc
            have hc2 : ("OUT" : String) = "IN" := hc
            exact absurd hc2 (by decide)
        · simp only [h, beq_iff_eq, if_false]
          exact hdrum x hx
      · intro g1 hg1
        obtain ⟨x1, hx1, hfx1⟩ := List.mem_map.mp hg1
        rw [← hfx1]
        by_cases hxg : x1.gridID = g
        · simp [hxg]
        · simp only [hxg, beq_iff_eq, if_false]
          exact hgs x1 hx1
      · intro d2 hd2
        obtain ⟨x, hx, hfx2⟩ := List.mem_map.mp hd2
        rw [← hfx2]
        by_cases h : x.drumID = did
        · simp [h]
        · simp only [h, beq_iff_eq, if_false]
          exact hds x hx
      · exact uniqueIDs_map hu _ (by
          intro x
          by_cases h : x.drumID = did <;> simp [h])

/-- The reset handler rebuilds the seeded store, which satisfies everything. -/
theorem auxInv_reset (db : DB) : AuxInv (resetAll db) :=
  show AuxInv initDB by decide

/-- Every state reachable under the guarded call patterns satisfies the
auxiliary invariant. -/
theorem auxInv_safeReachable (db : DB) (h : SafeReachable db) : AuxInv db := by
  induction h with
  | init => decide
  | register db0 h0 d o r now hguard ih => exact auxInv_register db0 ih d o r now hguard
  | place db0 h0 d g now hguard ih => exact auxInv_place db0 ih d g now hguard
  | retrieve db0 h0 d now ih => exact auxInv_retrieve db0 ih d now
  | reset db0 h0 ih => exact auxInv_reset db0

/-- A map that fixes every element of the list is the identity on it. -/
theorem map_id_of_fix {α : Type} (l : List α) (f : α → α) (h : ∀ x ∈ l, f x = x) :
    l.map f = l := by
  induction l with
  | nil => rfl
  | cons a t ih =>
      rw [List.map_cons, h a (List.mem_cons_self a t), ih (fun x hx => h x (List.mem_cons_of_mem a hx))]

/-- A row map that keeps the searched key and fixes every matching row is
invisible to `List.find?`. -/
theorem find?_map_of_fix {α : Type} (l : List α) (f : α → α) (p : α → Bool)
    (hp : ∀ x, p (f x) = p x) (hfix : ∀ x, p x = true → f x = x) :
    (l.map f).find? p = l.find? p := by
  rw [find?_map_comm l f p hp]
  rcases hr : l.find? p with _ | r
  · rfl
  · rw [Option.map_some', hfix r (List.find?_some hr)]

/-- `find?` skips a prefix on which it comes up empty. -/
theorem find?_append_left_none {α : Type} (l1 l2 : List α) (p : α → Bool)
    (h : l1.find? p = none) : (l1 ++ l2).find? p = l2.find? p := by
  induction l1 with
  | nil => rfl
  | cons a t ih =>
      cases hpa : p a with
      | true =>
          rw [List.find?_cons_of_pos _ hpa] at h
          exact Option.noConfusion h
      | false =>
          rw [List.find?_cons_of_neg _ (by rw [hpa]; simp)] at h
          rw [List.cons_append, List.find?_cons_of_neg _ (by rw [hpa]; simp)]
          exact ih h

/-- The placement page's availability check, as a proposition. -/
theorem placeCheck_iff (db : DB) (g : String) :
    placeCheck db g = true ↔ ∃ gr ∈ db.grids, gr.gridID = g ∧ gr.status = "Available" := by
  unfold placeCheck
  rw [List.any_eq_true]
  constructor
  · rintro ⟨x, hx, hp⟩
    have h1 := (Bool.and_eq_true _ _).mp hp
    exact ⟨x, hx, by simpa using h1.2, by simpa using h1.1⟩
  · rintro ⟨x, hx, hgid, hav⟩
    exact ⟨x, hx, by simp [hgid, hav]⟩

/-- Any row written with status `OUT` and no grid satisfies the drum invariant. -/
theorem drumInv_out (a : String) (b c : Option String) (n : Nat) :
    DrumInv ⟨a, b, c, "OUT", none, n⟩ :=
  ⟨fun hc => absurd (show (none : Option String).isSome = true from hc) (by decide),
   fun hc => absurd (show ("OUT" : String) = "IN" from hc) (by decide)⟩

/-- Any row written with status `IN` and a grid satisfies the drum invariant. -/
theorem drumInv_in (a : String) (b c : Option String) (g : String) (n : Nat) :
    DrumInv ⟨a, b, c, "IN", some g, n⟩ :=
  ⟨fun _ => rfl, fun _ => rfl⟩

/-- Every reachable state — even under the unguarded call patterns — keeps
each drum row with a two-valued status and `CurrentGrid` set iff `IN`. -/
theorem basicInv_reachable (db : DB) (h : Reachable db) : BasicInv db := by
  induction h with
  | init => decide
  | register db0 h0 d o r now ih =>
      obtain ⟨hdrum, hds⟩ := ih
      rcases hdr : getDrum db0 d with _ | dr
      · have hres : registerOrUpdateDrum db0 d o r now
            = { db0 with drums := db0.drums ++ [⟨d, some o, some r, "OUT", none, now⟩] } := by
          simp [registerOrUpdateDrum, insert_drum, hdr]
        rw [hres]
        constructor
        · intro d2 hd2
          rcases List.mem_append.mp hd2 with h1 | h1
          · exact hdrum d2 h1
          · have h2 : d2 = ⟨d, some o, some r, "OUT", none, now⟩ := by simpa using h1
            rw [h2]
            exact drumInv_out d (some o) (some r) now
        · intro d2 hd2
          rcases List.mem_append.mp hd2 with h1 | h1
          · exact hds d2 h1
          · have h2 : d2 = ⟨d, some o, some r, "OUT", none, now⟩ := by simpa using h1
            rw [h2]
            exact Or.inr rfl
      · have hres : registerOrUpdateDrum db0 d o r now = update_drum_info db0 d o r now := by
          rw [registerOrUpdateDrum, hdr]; rfl
        rw [hres]
        simp only [update_drum_info]
        constructor
        · intro d2 hd2
          obtain ⟨x, hx, hfx⟩ := List.mem_map.mp hd2
          rw [← hfx]
          by_cases hb : x.drumID = d
          · simp only [hb, beq_self_eq_true, if_true]
            exact drumInv_out x.drumID (some o) (some r) now
          · simp only [hb, beq_iff_eq, if_false]
            exact hdrum x hx
        · intro d2 hd2
          obtain ⟨x, hx, hfx⟩ := List.mem_map.mp hd2
          rw [← hfx]
          by_cases hb : x.drumID = d
          · simp [hb]
          · simp only [hb, beq_iff_eq, if_false]
            exact hds x hx
  | place db0 h0 d g now ih =>
      obtain ⟨hdrum, hds⟩ := ih
      by_cases hchk : placeCheck db0 g = true
      · have hres : (placeDrum db0 d g now).1 = update_drum_in db0 d g now := by
          rw [placeDrum, if_pos hchk]
        rw [hres]
        simp only [update_drum_in]
        constructor
        · intro d2 hd2
          obtain ⟨x, hx, hfx⟩ := List.mem_map.mp hd2
          rw [← hfx]
          by_cases hb : x.drumID = d
          · simp only [hb, beq_self_eq_true, if_true]
            exact drumInv_in x.drumID x.orderNo x.ra g now
          · simp only [hb, beq_iff_eq, if_false]
            exact hdrum x hx
        · intro d2 hd2
          obtain ⟨x, hx, hfx⟩ := List.mem_map.mp hd2
          rw [← hfx]
          by_cases hb : x.drumID = d
          · simp [hb]
          · simp only [hb, beq_iff_eq, if_false]
            exact hds x hx
      · have hres : (placeDrum db0 d g now).1 = db0 := by
          rw [placeDrum, if_neg hchk]
        rw [hres]
        exact ⟨hdrum, hds⟩
  | retrieve db0 h0 d now ih =>
      obtain ⟨hdrum, hds⟩ := ih
      rcases hdr : getDrum db0 d with _ | dr
      · have hres : (retrieveDrum db0 d now).1 = db0 := by
          simp [retrieveDrum, update_drum_out, hdr]
        rw [hres]
        exact ⟨hdrum, hds⟩
      · rcases hcg : dr.currentGrid with _ | g
        · have hres : (retrieveDrum db0 d now).1 = db0 := by
            simp [retrieveDrum, update_drum_out, hdr, hcg]
          rw [hres]
          exact ⟨hdrum, hds⟩
        · have hres : (retrieveDrum db0 d now).1 = { db0 with
              drumHistory := db0.drumHistory ++ [⟨d, dr.orderNo, dr.ra, "OUT", g, now⟩],
              drums := db0.drums.map (fun x =>
                if x.drumID == d then
                  { x with status := "OUT", orderNo := none, ra := none,
                           currentGrid := none, lastUpdated := now }
                else x),
              grids := db0.grids.map (fun x =>
                if x.gridID == g then
                  { x with status := "Available", currentDrumID := none }
                else x),
              transactions := db0.transactions ++ [⟨d, g, "OUT", now⟩] } := by
            simp [retrieveDrum, update_drum_out, hdr, hcg]
          rw [hres]
          constructor
          · intro d2 hd2
            obtain ⟨x, hx, hfx⟩ := List.mem_map.mp hd2
            rw [← hfx]
            by_cases hb : x.drumID = d
            · simp only [hb, beq_self_eq_true, if_true]
              exact drumInv_out x.drumID none none now
            · simp only [hb, beq_iff_eq, if_false]
              exact hdrum x hx
          · intro d2 hd2
            obtain ⟨x, hx, hfx⟩ := List.mem_map.mp hd2
            rw [← hfx]
            by_cases hb : x.drumID = d
            · simp [hb]
            · simp only [hb, beq_iff_eq, if_false]
              exact hds x hx
  | reset db0 h0 ih =>
      exact show BasicInv initDB by decide

/-- After `update_drum_in`, the placed drum's row is the old row marked IN. -/
theorem getDrum_update_drum_in {db : DB} {d : String} {dr : Drum}
    (h : getDrum db d = some dr) (g : String) (now : Nat) :
    getDrum (update_drum_in db d g now) d
      = some { dr with status := "IN", currentGrid := some g, lastUpdated := now } := by
  obtain ⟨hmem, hid⟩ := getDrum_mem h
  have h2 : db.drums.find? (fun x => x.drumID == d) = some dr := h
  simp only [getDrum, update_drum_in]
  rw [find?_map_comm _ _ _ (fun x => by by_cases hb : x.drumID = d <;> simp [hb])]
  rw [h2, Option.map_some']
  simp [hid]

/-- After `update_drum_info`, the registered drum's row is the old row with
the new refs, forced OUT and unlinked. -/
theorem getDrum_update_drum_info {db : DB} {d : String} {dr : Drum}
    (h : getDrum db d = some dr) (o r : String) (now : Nat) :
    getDrum (update_drum_info db d o r now) d
      = some { dr with orderNo := some o, ra := some r, status := "OUT",
                       currentGrid := none, lastUpdated := now } := by
  obtain ⟨hmem, hid⟩ := getDrum_mem h
  have h2 : db.drums.find? (fun x => x.drumID == d) = some dr := h
  simp only [getDrum, update_drum_info]
  rw [find?_map_comm _ _ _ (fun x => by by_cases hb : x.drumID = d <;> simp [hb])]
  rw [h2, Option.map_some']
  simp [hid]

/-- The successful branch of `update_drum_out`, written out. -/
theorem update_drum_out_eq {db : DB} {d : String} {dr : Drum} {g : String}
    (hdr : getDrum db d = some dr) (hcg : dr.currentGrid = some g) (now : Nat) :
    update_drum_out db d now = ({ db with
      drumHistory := db.drumHistory ++ [⟨d, dr.orderNo, dr.ra, "OUT", g, now⟩],
      drums := db.drums.map (fun x =>
        if x.drumID == d then
          { x with status := "OUT", orderNo := none, ra := none,
                   currentGrid := none, lastUpdated := now }
        else x),
      grids := db.grids.map (fun x =>
        if x.gridID == g then
          { x with status := "Available", currentDrumID := none }
        else x),
      transactions := db.transactions ++ [⟨d, g, "OUT", now⟩] }, true) := by
  simp [update_drum_out, hdr, hcg]

/-- C1 (counterexample): the bidirectional invariant does not hold in every
state reachable by arbitrary `registerOrUpdateDrum` / `placeDrum` /
`retrieveDrum` / `resetAll` calls — registering `D1`, placing it on `A1` and
re-registering it leaves `A1` Occupied while no drum references it. -/
theorem c1_invariant_counterexample : ¬ (∀ db : DB, Reachable db → StoreInv db) := by
  intro h
  have hbad := h staleGridDB
    (Reachable.register _
      (Reachable.place _
        (Reachable.register _ Reachable.init "D1" "O1" "M1" 0) "D1" "A1" 1)
      "D1" "O2" "M2" 2)
  exact absurd hbad (by decide)

/-- C1 (amended): in every state reachable from the freshly seeded store by
sequences in which `registerOrUpdateDrum` is only invoked on drums that are
absent or OUT and `placeDrum` only on existing OUT drums, every Occupied grid
has exactly one referencing drum whose id it records as occupant, every
Available grid is referenced by no drum, and each drum has `currentGrid` set
iff its status is IN. -/
theorem safeReachable_storeInv (db : DB) (h : SafeReachable db) : StoreInv db :=
  (auxInv_safeReachable db h).1

/-- C1 witness: a register-then-place trace reaches a state satisfying the
invariant. -/
theorem safeReachable_storeInv_witness :
    StoreInv (placeDrum (registerOrUpdateDrum initDB "D1" "O1" "M1" 0) "D1" "A1" 1).1 :=
  safeReachable_storeInv _
    (SafeReachable.place _
      (SafeReachable.register _ SafeReachable.init "D1" "O1" "M1" 0 (Or.inl (by decide)))
      "D1" "A1" 1
      ⟨⟨"D1", some "O1", some "M1", "OUT", none, 0⟩, by decide, rfl⟩)

/-- C6: `registerOrUpdateDrum(drumId, orderRef, materialRef)` unconditionally
leaves the drum row as ⟨drumId, orderRef, materialRef, OUT, no grid, now⟩ —
creating it when absent, overwriting refs / forcing OUT / clearing the grid
link when present, even when the drum is currently IN. -/
theorem registerOrUpdateDrum_spec (db : DB) (d o r : String) (now : Nat) :
    getDrum (registerOrUpdateDrum db d o r now) d
      = some ⟨d, some o, some r, "OUT", none, now⟩ := by
  rcases hdr : getDrum db d with _ | dr
  · have hres : registerOrUpdateDrum db d o r now
        = { db with drums := db.drums ++ [⟨d, some o, some r, "OUT", none, now⟩] } := by
      simp [registerOrUpdateDrum, insert_drum, hdr]
    rw [hres]
    have h2 : db.drums.find? (fun x => x.drumID == d) = none := hdr
    simp only [getDrum]
    rw [find?_append_left_none _ _ _ h2]
    simp
  · have hres : registerOrUpdateDrum db d o r now = update_drum_info db d o r now := by
      rw [registerOrUpdateDrum, hdr]; rfl
    obtain ⟨hmem, hid⟩ := getDrum_mem hdr
    rw [hres, getDrum_update_drum_info hdr o r now]
    rw [show dr = ⟨dr.drumID, dr.orderNo, dr.ra, dr.status, dr.currentGrid, dr.lastUpdated⟩ from rfl]
    rw [hid]

/-- C7: after any state whatsoever, `resetAll` leaves zero drum, transaction
and history records and exactly the nine grids A1–C3, each Available with no
occupant. -/
theorem resetAll_spec (db : DB) :
    (resetAll db).drums = [] ∧ (resetAll db).transactions = [] ∧
    (resetAll db).drumHistory = [] ∧
    (resetAll db).grids
      = [⟨"A1", "Available", none⟩, ⟨"A2", "Available", none⟩, ⟨"A3", "Available", none⟩,
         ⟨"B1", "Available", none⟩, ⟨"B2", "Available", none⟩, ⟨"B3", "Available", none⟩,
         ⟨"C1", "Available", none⟩, ⟨"C2", "Available", none⟩, ⟨"C3", "Available", none⟩] :=
  ⟨rfl, rfl, rfl, rfl⟩

/-- C2 (counterexample): with no drum registered at all, placing unknown
`D1` on the available grid `A1` does not fail with `DrumNotFound` — it
reports success, occupies the grid with the phantom drum and logs an IN
transaction. -/
theorem c2_drumNotFound_counterexample :
    getDrum initDB "D1" = none ∧
    (placeDrum initDB "D1" "A1" 0).2 = PlaceResult.success ∧
    findGrid (placeDrum initDB "D1" "A1" 0).1 "A1" = some ⟨"A1", "Occupied", some "D1"⟩ ∧
    (placeDrum initDB "D1" "A1" 0).1.transactions = [⟨"D1", "A1", "IN", 0⟩] := by
  decide

/-- C2 (amended): `placeDrum` fails with `GridUnavailable` exactly when no
grid row with the given id is Available, and such a failure changes nothing;
there is no drum-existence check at all — when the grid is available the
placement commits even for an unknown drum id, leaving the `drums` table
unchanged. -/
theorem placeDrum_failure_spec (db : DB) (d g : String) (now : Nat) :
    ((placeDrum db d g now).2 = PlaceResult.gridUnavailable ↔
      ¬ ∃ gr ∈ db.grids, gr.gridID = g ∧ gr.status = "Available") ∧
    ((placeDrum db d g now).2 = PlaceResult.gridUnavailable → (placeDrum db d g now).1 = db) ∧
    (getDrum db d = none → (placeDrum db d g now).1.drums = db.drums) := by
  by_cases hchk : placeCheck db g = true
  · have hres : placeDrum db d g now = (update_drum_in db d g now, .success) := by
      rw [placeDrum, if_pos hchk]
    rw [hres]
    refine ⟨?_, ?_, ?_⟩
    · constructor
      · intro hc
        have hc2 : PlaceResult.success = PlaceResult.gridUnavailable := hc
        exact absurd hc2 (by decide)
      · intro hc
        exact absurd (placeCheck_iff db g |>.mp hchk) hc
    · intro hc
      have hc2 : PlaceResult.success = PlaceResult.gridUnavailable := hc
      exact absurd hc2 (by decide)
    · intro hnone
      have hfix : ∀ x ∈ db.drums, (if x.drumID == d then
          { x with status := "IN", currentGrid := some g, lastUpdated := now }
        else x) = x := by
        intro x hx
        have := getDrum_eq_none hnone x hx
        simp [this]
      exact map_id_of_fix db.drums _ hfix
  · have hres : placeDrum db d g now = (db, .gridUnavailable) := by
      rw [placeDrum, if_neg hchk]
    rw [hres]
    refine ⟨?_, fun _ => rfl, fun _ => rfl⟩
    constructor
    · intro _ hc
      exact hchk (placeCheck_iff db g |>.mpr hc)
    · intro _
      rfl

/-- C2 witness: failing to place onto the nonexistent grid `Z9` leaves the
store untouched. -/
theorem placeDrum_failure_spec_witness :
    (placeDrum initDB "D1" "Z9" 0).1 = initDB :=
  (placeDrum_failure_spec initDB "D1" "Z9" 0).2.1 (by decide)

/-- C3: placing an existing drum on an existing Available grid succeeds,
marks the drum IN on that grid with a refreshed timestamp, marks the grid
Occupied by that drum, and appends exactly one IN transaction. -/
theorem placeDrum_success_spec (db : DB) (d g : String) (now : Nat) (dr : Drum)
    (hdr : getDrum db d = some dr)
    (hgr : ∃ gr ∈ db.grids, gr.gridID = g ∧ gr.status = "Available") :
    (placeDrum db d g now).2 = PlaceResult.success ∧
    getDrum (placeDrum db d g now).1 d
      = some { dr with status := "IN", currentGrid := some g, lastUpdated := now } ∧
    (∃ gr2, findGrid (placeDrum db d g now).1 g = some gr2 ∧
      gr2.status = "Occupied" ∧ gr2.currentDrumID = some d) ∧
    (placeDrum db d g now).1.transactions = db.transactions ++ [⟨d, g, "IN", now⟩] := by
  have hchk : placeCheck db g = true := (placeCheck_iff db g).mpr hgr
  have hres : placeDrum db d g now = (update_drum_in db d g now, .success) := by
    rw [placeDrum, if_pos hchk]
  rw [hres]
  refine ⟨rfl, getDrum_update_drum_in hdr g now, ?_, rfl⟩
  obtain ⟨gr, hgrm, hgid, hgav⟩ := hgr
  have hsome : (db.grids.find? (fun x => x.gridID == g)).isSome := by
    rw [List.find?_isSome]
    exact ⟨gr, hgrm, by simp [hgid]⟩
  rcases hfg : db.grids.find? (fun x => x.gridID == g) with _ | gr0
  · rw [hfg] at hsome
    exact absurd hsome (by decide)
  · have hg0id : gr0.gridID = g := by
      have := List.find?_some hfg
      simpa using this
    refine ⟨{ gr0 with status := "Occupied", currentDrumID := some d }, ?_, rfl, rfl⟩
    simp only [findGrid, update_drum_in]
    rw [find?_map_comm _ _ _ (fun x => by by_cases hb : x.gridID = g <;> simp [hb])]
    rw [hfg, Option.map_some']
    simp [hg0id]

/-- C3 witness: register `D1`, then place it on `A1`. -/
theorem placeDrum_success_spec_witness :
    (placeDrum (registerOrUpdateDrum initDB "D1" "O1" "M1" 0) "D1" "A1" 1).2
        = PlaceResult.success ∧
    getDrum (placeDrum (registerOrUpdateDrum initDB "D1" "O1" "M1" 0) "D1" "A1" 1).1 "D1"
        = some ⟨"D1", some "O1", some "M1", "IN", some "A1", 1⟩ ∧
    (∃ gr2, findGrid (placeDrum (registerOrUpdateDrum initDB "D1" "O1" "M1" 0) "D1" "A1" 1).1 "A1"
        = some gr2 ∧ gr2.status = "Occupied" ∧ gr2.currentDrumID = some "D1") ∧
    (placeDrum (registerOrUpdateDrum initDB "D1" "O1" "M1" 0) "D1" "A1" 1).1.transactions
        = (registerOrUpdateDrum initDB "D1" "O1" "M1" 0).transactions ++ [⟨"D1", "A1", "IN", 1⟩] :=
  placeDrum_success_spec (registerOrUpdateDrum initDB "D1" "O1" "M1" 0) "D1" "A1" 1
    ⟨"D1", some "O1", some "M1", "OUT", none, 0⟩ (by decide)
    ⟨⟨"A1", "Available", none⟩, by decide, rfl, rfl⟩

/-- C4: in every reachable state, `retrieveDrum` fails (returns `False`)
exactly when the drum does not exist or is already OUT, and such a failure
is a strict no-op — no drum, grid, transaction or history record changes. -/
theorem retrieveDrum_notPlaced_spec (db : DB) (hre : Reachable db) (d : String) (now : Nat) :
    ((retrieveDrum db d now).2 = false ↔
      getDrum db d = none ∨ ∃ dr, getDrum db d = some dr ∧ dr.status = "OUT") ∧
    ((retrieveDrum db d now).2 = false → (retrieveDrum db d now).1 = db) := by
  obtain ⟨hdrum, hds⟩ := basicInv_reachable db hre
  rcases hdr : getDrum db d with _ | dr
  · refine ⟨⟨fun _ => Or.inl rfl, fun _ => ?_⟩, fun _ => ?_⟩
    · simp [retrieveDrum, update_drum_out, hdr]
    · simp [retrieveDrum, update_drum_out, hdr]
  · obtain ⟨hmem, hid⟩ := getDrum_mem hdr
    rcases hcg : dr.currentGrid with _ | g
    · have hout : dr.status = "OUT" := by
        rcases hds dr hmem with hin | ho
        · exfalso
          have hc := (hdrum dr hmem).mpr hin
          rw [hcg] at hc
          exact absurd hc (by decide)
        · exact ho
      refine ⟨⟨fun _ => Or.inr ⟨dr, rfl, hout⟩, fun _ => ?_⟩, fun _ => ?_⟩
      · simp [retrieveDrum, update_drum_out, hdr, hcg]
      · simp [retrieveDrum, update_drum_out, hdr, hcg]
    · have hin : dr.status = "IN" := (hdrum dr hmem).mp (by rw [hcg]; rfl)
      have htrue : (retrieveDrum db d now).2 = true := by
        simp [retrieveDrum, update_drum_out, hdr, hcg]
      constructor
      · constructor
        · intro hfalse
          rw [htrue] at hfalse
          exact absurd hfalse (by decide)
        · rintro (hnone | ⟨dr2, hdr2, hout2⟩)
          · exact Option.noConfusion hnone
          · rw [← Option.some.inj hdr2, hin] at hout2
            exact absurd hout2 (by decide)
      · intro hfalse
        rw [htrue] at hfalse
        exact absurd hfalse (by decide)

/-- C4 witness: on the freshly seeded store, retrieving the unknown drum
`D1` fails and changes nothing. -/
theorem retrieveDrum_notPlaced_spec_witness :
    (((retrieveDrum initDB "D1" 0).2 = false ↔
      getDrum initDB "D1" = none ∨
        ∃ dr, getDrum initDB "D1" = some dr ∧ dr.status = "OUT") ∧
    ((retrieveDrum initDB "D1" 0).2 = false → (retrieveDrum initDB "D1" 0).1 = initDB)) :=
  retrieveDrum_notPlaced_spec initDB Reachable.init "D1" 0

/-- C5: a successful retrieval appends exactly one history record carrying
the drum's pre-call `orderRef`/`materialRef`/grid (captured before the live
row is cleared inside the same transition), and afterwards the live drum's
`orderRef` and `materialRef` are empty. -/
theorem retrieveDrum_history_spec (db : DB) (d : String) (now : Nat) (dr : Drum) (g : String)
    (hdr : getDrum db d = some dr) (hcg : dr.currentGrid = some g) :
    (retrieveDrum db d now).2 = true ∧
    (retrieveDrum db d now).1.drumHistory
      = db.drumHistory ++ [⟨d, dr.orderNo, dr.ra, "OUT", g, now⟩] ∧
    getDrum (retrieveDrum db d now).1 d
      = some { dr with status := "OUT", orderNo := none, ra := none,
                       currentGrid := none, lastUpdated := now } := by
  obtain ⟨hmem, hid⟩ := getDrum_mem hdr
  have hres := update_drum_out_eq hdr hcg now
  refine ⟨by rw [retrieveDrum, hres], by rw [retrieveDrum, hres], ?_⟩
  have h2 : db.drums.find? (fun x => x.drumID == d) = some dr := hdr
  rw [retrieveDrum, hres]
  simp only [getDrum]
  rw [find?_map_comm _ _ _ (fun x => by by_cases hb : x.drumID = d <;> simp [hb])]
  rw [h2, Option.map_some']
  simp [hid]

/-- C5 witness: register, place, retrieve `D1`; the history row carries the
pre-retrieval refs and the live row is cleared. -/
theorem retrieveDrum_history_spec_witness :
    (retrieveDrum (placeDrum (registerOrUpdateDrum initDB "D1" "O1" "M1" 0) "D1" "A1" 1).1
        "D1" 2).2 = true ∧
    (retrieveDrum (placeDrum (registerOrUpdateDrum initDB "D1" "O1" "M1" 0) "D1" "A1" 1).1
        "D1" 2).1.drumHistory
      = (placeDrum (registerOrUpdateDrum initDB "D1" "O1" "M1" 0) "D1" "A1" 1).1.drumHistory
        ++ [⟨"D1", some "O1", some "M1", "OUT", "A1", 2⟩] ∧
    getDrum (retrieveDrum (placeDrum (registerOrUpdateDrum initDB "D1" "O1" "M1" 0)
        "D1" "A1" 1).1 "D1" 2).1 "D1"
      = some ⟨"D1", none, none, "OUT", none, 2⟩ :=
  retrieveDrum_history_spec
    (placeDrum (registerOrUpdateDrum initDB "D1" "O1" "M1" 0) "D1" "A1" 1).1 "D1" 2
    ⟨"D1", some "O1", some "M1", "IN", some "A1", 1⟩ "A1" (by decide) rfl

/-- C9: success of `retrieveDrum` is decided solely by `CurrentGrid` — it
returns `False` leaving the store untouched exactly when the drum row is
absent or `CurrentGrid` is `NULL`, regardless of the `Status` column. -/
theorem retrieveDrum_decided_by_currentGrid (db : DB) (d : String) (now : Nat) :
    retrieveDrum db d now = (db, false) ↔
      getDrum db d = none ∨ ∃ dr, getDrum db d = some dr ∧ dr.currentGrid = none := by
  rcases hdr : getDrum db d with _ | dr
  · constructor
    · intro _
      exact Or.inl rfl
    · intro _
      simp [retrieveDrum, update_drum_out, hdr]
  · rcases hcg : dr.currentGrid with _ | g
    · constructor
      · intro _
        exact Or.inr ⟨dr, rfl, hcg⟩
      · intro _
        simp [retrieveDrum, update_drum_out, hdr, hcg]
    · constructor
      · intro hc
        have htrue : (retrieveDrum db d now).2 = true := by
          simp [retrieveDrum, update_drum_out, hdr, hcg]
        rw [hc] at htrue
        have h2 : false = true := htrue
        exact absurd h2 (by decide)
      · rintro (hnone | ⟨dr2, hdr2, hcg2⟩)
        · exact Option.noConfusion hnone
        · rw [← Option.some.inj hdr2, hcg] at hcg2
          exact Option.noConfusion hcg2

/-- C10: a successful retrieval touches only the retrieved drum's row and
the one grid row it referenced, and appends exactly one transaction and one
history record — every other drum row, grid row and all pre-existing log
records are unchanged. -/
theorem retrieveDrum_frame_spec (db : DB) (d : String) (now : Nat) (dr : Drum) (g : String)
    (hdr : getDrum db d = some dr) (hcg : dr.currentGrid = some g) :
    (∀ d2 : String, d2 ≠ d → getDrum (retrieveDrum db d now).1 d2 = getDrum db d2) ∧
    (∀ g2 : String, g2 ≠ g → findGrid (retrieveDrum db d now).1 g2 = findGrid db g2) ∧
    (retrieveDrum db d now).1.transactions = db.transactions ++ [⟨d, g, "OUT", now⟩] ∧
    (retrieveDrum db d now).1.drumHistory
      = db.drumHistory ++ [⟨d, dr.orderNo, dr.ra, "OUT", g, now⟩] := by
  have hres := update_drum_out_eq hdr hcg now
  refine ⟨?_, ?_, by rw [retrieveDrum, hres], by rw [retrieveDrum, hres]⟩
  · intro d2 hne
    rw [retrieveDrum, hres]
    simp only [getDrum]
    apply find?_map_of_fix
    · intro x
      by_cases hb : x.drumID = d <;> simp [hb]
    · intro x hpx
      have hx2 : x.drumID = d2 := by simpa using hpx
      simp [hx2, hne]
  · intro g2 hne
    rw [retrieveDrum, hres]
    simp only [findGrid]
    apply find?_map_of_fix
    · intro x
      by_cases hb : x.gridID = g <;> simp [hb]
    · intro x hpx
      have hx2 : x.gridID = g2 := by simpa using hpx
      simp [hx2, hne]

/-- C10 witness: after register `D1`/`D2`, place both, retrieve `D1`: `D2`'s
row and `A2`'s row are unchanged and the logs grew by one record each. -/
theorem retrieveDrum_frame_spec_witness :
    (∀ d2 : String, d2 ≠ "D1" →
      getDrum (retrieveDrum frameDB "D1" 9).1 d2 = getDrum frameDB d2) ∧
    (∀ g2 : String, g2 ≠ "A1" →
      findGrid (retrieveDrum frameDB "D1" 9).1 g2 = findGrid frameDB g2) ∧
    (retrieveDrum frameDB "D1" 9).1.transactions
      = frameDB.transactions ++ [⟨"D1", "A1", "OUT", 9⟩] ∧
    (retrieveDrum frameDB "D1" 9).1.drumHistory
      = frameDB.drumHistory ++ [⟨"D1", some "O1", some "M1", "OUT", "A1", 9⟩] :=
  retrieveDrum_frame_spec frameDB "D1" 9
    ⟨"D1", some "O1", some "M1", "IN", some "A1", 1⟩ "A1" (by decide) rfl

/-- C8 (counterexample): under the interleaving check₁ · check₂ · commit₁ ·
commit₂ — possible because the page's availability check and
`update_drum_in` are separate store operations with no re-validation before
the commit — both callers' checks against the shared pre-state pass, both
commits land, and the final state records both drums IN on `A1`, the grid
occupied by the second: two successes, not one success and one
`GridUnavailable`. -/
theorem c8_double_placement_counterexample :
    placeCheck raceDB0 "A1" = true ∧
    getDrum raceDB2 "D1" = some ⟨"D1", some "O1", some "M1", "IN", some "A1", 1⟩ ∧
    getDrum raceDB2 "D2" = some ⟨"D2", some "O2", some "M2", "IN", some "A1", 2⟩ ∧
    findGrid raceDB2 "A1" = some ⟨"A1", "Occupied", some "D2"⟩ := by
  decide

/-- C8 (amended): when the two placements on the same grid execute serially
— each availability check immediately followed by its own commit — exactly
one succeeds and the other fails with `GridUnavailable`, leaving the first
call's state untouched. -/
theorem placeDrum_serial_spec (db : DB) (d1 d2 g : String) (n1 n2 : Nat)
    (h : placeCheck db g = true) :
    (placeDrum db d1 g n1).2 = PlaceResult.success ∧
    placeDrum (placeDrum db d1 g n1).1 d2 g n2
      = ((placeDrum db d1 g n1).1, PlaceResult.gridUnavailable) := by
  have hres : placeDrum db d1 g n1 = (update_drum_in db d1 g n1, .success) := by
    rw [placeDrum, if_pos h]
  have h2 : placeCheck (placeDrum db d1 g n1).1 g = false := by
    rw [hres]
    refine Bool.eq_false_iff.mpr ?_
    intro hc
    obtain ⟨y, hy, hp⟩ := List.any_eq_true.mp hc
    obtain ⟨x, hx, hfx⟩ := List.mem_map.mp hy
    by_cases hxg : x.gridID = g
    · rw [← hfx] at hp
      simp [hxg] at hp
    · rw [← hfx] at hp
      simp [hxg] at hp
  exact ⟨by rw [hres], by rw [placeDrum, if_neg (by simp [h2])]⟩

/-- C8 witness: `D1` and `D2` staged, grid `A1` free; the serial pair gives
one success then one `GridUnavailable`. -/
theorem placeDrum_serial_spec_witness :
    (placeDrum raceDB0 "D1" "A1" 1).2 = PlaceResult.success ∧
    placeDrum (placeDrum raceDB0 "D1" "A1" 1).1 "D2" "A1" 2
      = ((placeDrum raceDB0 "D1" "A1" 1).1, PlaceResult.gridUnavailable) :=
  placeDrum_serial_spec raceDB0 "D1" "D2" "A1" 1 2 (by decide)

